import Mathlib

/-!
Verification of the waysnip selection geometry (src/selection.rs, src/canvas.rs).
Coordinates are embedded as rationals; the Rust code uses f32, whose
arithmetic on the values involved here (max, min, add, sub, comparisons on
moderate magnitudes) is modelled exactly by rational arithmetic.
-/

namespace Waysnip

/-- Size of resize handles in pixels (HANDLE_SIZE in selection.rs). -/
def HANDLE_SIZE : ℚ := 14

/-- Edge grab zone width in pixels (EDGE_GRAB_WIDTH in selection.rs). -/
def EDGE_GRAB_WIDTH : ℚ := 8

/-- Minimum selection size in pixels (MIN_SIZE in selection.rs). -/
def MIN_SIZE : ℚ := 20

/-- Which handle or edge is being dragged (enum ResizeEdge). -/
inductive ResizeEdge where
  | TopLeft
  | TopRight
  | BottomRight
  | BottomLeft
  | Top
  | Right
  | Bottom
  | Left
deriving DecidableEq, Repr

/-- Cursor name for an edge or handle (ResizeEdge::cursor_name). -/
def ResizeEdge.cursor_name : ResizeEdge → String
  | .TopLeft => "nw-resize"
  | .TopRight => "ne-resize"
  | .BottomRight => "se-resize"
  | .BottomLeft => "sw-resize"
  | .Top => "n-resize"
  | .Right => "e-resize"
  | .Bottom => "s-resize"
  | .Left => "w-resize"

/-- Current drag mode (enum DragMode). -/
inductive DragMode where
  | None
  | Creating
  | Moving
  | Resizing (edge : ResizeEdge)
deriving DecidableEq, Repr

/-- A rectangle representing the selection area (struct Rect). -/
structure Rect where
  x : ℚ
  y : ℚ
  width : ℚ
  height : ℚ
deriving DecidableEq, Repr

/-- Rect::new. -/
def Rect.new (x y width height : ℚ) : Rect :=
  ⟨x, y, width, height⟩

/-- Rect::normalized: make width and height non-negative. -/
def Rect.normalized (r : Rect) : Rect :=
  let xw := if r.width < 0 then (r.x + r.width, -r.width) else (r.x, r.width)
  let yh := if r.height < 0 then (r.y + r.height, -r.height) else (r.y, r.height)
  ⟨xw.1, yh.1, xw.2, yh.2⟩

/-- Rect::contains: inclusive point-in-rect test on the normalized form. -/
def Rect.contains (r : Rect) (px py : ℚ) : Prop :=
  let norm := r.normalized
  px ≥ norm.x ∧ px ≤ norm.x + norm.width ∧ py ≥ norm.y ∧ py ≤ norm.y + norm.height

instance (r : Rect) (px py : ℚ) : Decidable (r.contains px py) := by
  unfold Rect.contains
  exact instDecidableAnd

/-- Rect::right. -/
def Rect.right (r : Rect) : ℚ := r.x + r.width

/-- Rect::bottom. -/
def Rect.bottom (r : Rect) : ℚ := r.y + r.height

/-- Computable maximum on ℚ (f32::max); equal to max, see rmax_eq. -/
def rmax (a b : ℚ) : ℚ := if a ≤ b then b else a

/-- Computable minimum on ℚ (f32::min); equal to min, see rmin_eq. -/
def rmin (a b : ℚ) : ℚ := if a ≤ b then a else b

/-- Rect::constrain: normalize, enforce minimum size, keep within screen
bounds, final clamps, exactly in the order of the Rust code. -/
def Rect.constrain (r : Rect) (screen_width screen_height : ℚ) : Rect :=
  let r0 := r.normalized
  let w1 := rmax r0.width MIN_SIZE
  let h1 := rmax r0.height MIN_SIZE
  let x1 := rmax r0.x 0
  let y1 := rmax r0.y 0
  let x2 := if x1 + w1 > screen_width then screen_width - w1 else x1
  let y2 := if y1 + h1 > screen_height then screen_height - h1 else y1
  ⟨rmax x2 0, rmax y2 0, rmin w1 screen_width, rmin h1 screen_height⟩

/-- Selection state management (struct Selection). -/
structure Selection where
  rect : Option Rect
  screen_width : ℚ
  screen_height : ℚ
  drag_mode : DragMode
  drag_start : ℚ × ℚ
  drag_start_rect : Option Rect
  predefined_regions : List Rect
  hovered_region : Option ℕ
deriving DecidableEq, Repr

/-- Selection::new. -/
def Selection.new (screen_width screen_height : ℚ) : Selection :=
  ⟨none, screen_width, screen_height, .None, (0, 0), none, [], none⟩

/-- Selection::with_predefined_regions. -/
def Selection.with_predefined_regions (screen_width screen_height : ℚ)
    (predefined_regions : List Rect) : Selection :=
  ⟨none, screen_width, screen_height, .None, (0, 0), none, predefined_regions, none⟩

/-- Selection::find_predefined_region_at: first region containing the point. -/
def Selection.find_predefined_region_at (sel : Selection) (x y : ℚ) : Option ℕ :=
  go sel.predefined_regions 0 x y
where
  go : List Rect → ℕ → ℚ → ℚ → Option ℕ
    | [], _, _, _ => none
    | r :: rs, i, x, y => if r.contains x y then some i else go rs (i + 1) x y

/-- Selection::update_hovered_region. -/
def Selection.update_hovered_region (sel : Selection) (x y : ℚ) : Selection :=
  { sel with hovered_region := sel.find_predefined_region_at x y }

/-- Selection::select_predefined_region: install the indexed region verbatim,
returning whether the index existed. -/
def Selection.select_predefined_region (sel : Selection) (index : ℕ) :
    Bool × Selection :=
  match sel.predefined_regions[index]? with
  | some region => (true, { sel with rect := some region })
  | none => (false, sel)

/-- Selection::get_corner_handles: the four handle squares, in source order. -/
def Selection.get_corner_handles (sel : Selection) :
    Option (List (ResizeEdge × Rect)) :=
  match sel.rect with
  | none => none
  | some r0 =>
    let rect := r0.normalized
    let hs := HANDLE_SIZE
    let hhs := hs / 2
    some [
      (.TopLeft, Rect.new (rect.x - hhs) (rect.y - hhs) hs hs),
      (.TopRight, Rect.new (rect.right - hhs) (rect.y - hhs) hs hs),
      (.BottomRight, Rect.new (rect.right - hhs) (rect.bottom - hhs) hs hs),
      (.BottomLeft, Rect.new (rect.x - hhs) (rect.bottom - hhs) hs hs)]

/-- First handle in the list containing the point (the loop body of
Selection::hit_test_corner). -/
def firstHandleAt : List (ResizeEdge × Rect) → ℚ → ℚ → Option ResizeEdge
  | [], _, _ => none
  | (edge, rect) :: rest, x, y =>
    if rect.contains x y then some edge else firstHandleAt rest x y

/-- Selection::hit_test_corner. -/
def Selection.hit_test_corner (sel : Selection) (x y : ℚ) : Option ResizeEdge :=
  match sel.get_corner_handles with
  | none => none
  | some handles => firstHandleAt handles x y

/-- Selection::hit_test_edge: edge bands checked Top, Bottom, Left, Right. -/
def Selection.hit_test_edge (sel : Selection) (x y : ℚ) : Option ResizeEdge :=
  match sel.rect with
  | none => none
  | some r0 =>
    let rect := r0.normalized
    let grab := EDGE_GRAB_WIDTH
    let in_horizontal :=
      x ≥ rect.x + HANDLE_SIZE / 2 ∧ x ≤ rect.right - HANDLE_SIZE / 2
    let in_vertical :=
      y ≥ rect.y + HANDLE_SIZE / 2 ∧ y ≤ rect.bottom - HANDLE_SIZE / 2
    if in_horizontal ∧ y ≥ rect.y - grab ∧ y ≤ rect.y + grab then
      some .Top
    else if in_horizontal ∧ y ≥ rect.bottom - grab ∧ y ≤ rect.bottom + grab then
      some .Bottom
    else if in_vertical ∧ x ≥ rect.x - grab ∧ x ≤ rect.x + grab then
      some .Left
    else if in_vertical ∧ x ≥ rect.right - grab ∧ x ≤ rect.right + grab then
      some .Right
    else
      none

/-- Selection::hit_test: corner, then edge, then interior, else Creating. -/
def Selection.hit_test (sel : Selection) (x y : ℚ) : DragMode :=
  match sel.hit_test_corner x y with
  | some edge => .Resizing edge
  | none =>
    match sel.hit_test_edge x y with
    | some edge => .Resizing edge
    | none =>
      match sel.rect with
      | some rect => if rect.normalized.contains x y then .Moving else .Creating
      | none => .Creating

/-- Selection::cursor_for_position. -/
def Selection.cursor_for_position (sel : Selection) (x y : ℚ) : String :=
  if sel.drag_mode = DragMode.Moving then
    "grabbing"
  else
    match sel.hit_test_corner x y with
    | some edge => edge.cursor_name
    | none =>
      match sel.hit_test_edge x y with
      | some edge => edge.cursor_name
      | none =>
        match sel.rect with
        | some rect => if rect.normalized.contains x y then "grab" else "crosshair"
        | none => "crosshair"

/-- Selection::start_drag. -/
def Selection.start_drag (sel : Selection) (x y : ℚ) : Selection :=
  let mode := sel.hit_test x y
  let sel2 := { sel with
    drag_mode := mode
    drag_start := (x, y)
    drag_start_rect := sel.rect }
  if mode = DragMode.Creating then
    { sel2 with rect := some (Rect.new x y 0 0) }
  else
    sel2

/-- The per-edge transform inside Selection::apply_resize (the match block),
before normalization and constraining. -/
def resizeTransform (start : Rect) (edge : ResizeEdge) (dx dy : ℚ) : Rect :=
  match edge with
  | .TopLeft =>
    ⟨start.x + dx, start.y + dy, start.width - dx, start.height - dy⟩
  | .Top =>
    ⟨start.x, start.y + dy, start.width, start.height - dy⟩
  | .TopRight =>
    ⟨start.x, start.y + dy, start.width + dx, start.height - dy⟩
  | .Right =>
    ⟨start.x, start.y, start.width + dx, start.height⟩
  | .BottomRight =>
    ⟨start.x, start.y, start.width + dx, start.height + dy⟩
  | .Bottom =>
    ⟨start.x, start.y, start.width, start.height + dy⟩
  | .BottomLeft =>
    ⟨start.x + dx, start.y, start.width - dx, start.height + dy⟩
  | .Left =>
    ⟨start.x + dx, start.y, start.width - dx, start.height⟩

/-- Selection::apply_resize: per-edge transform, then normalize and constrain. -/
def Selection.apply_resize (sel : Selection) (start : Rect) (edge : ResizeEdge)
    (dx dy : ℚ) : Rect :=
  (resizeTransform start edge dx dy).normalized.constrain
    sel.screen_width sel.screen_height

/-- Selection::update_drag. -/
def Selection.update_drag (sel : Selection) (x y : ℚ) : Selection :=
  let sx := sel.drag_start.1
  let sy := sel.drag_start.2
  let dx := x - sx
  let dy := y - sy
  match sel.drag_mode with
  | .None => sel
  | .Creating => { sel with rect := some (Rect.new sx sy dx dy) }
  | .Moving =>
    match sel.drag_start_rect with
    | some start_rect =>
      { sel with rect := some ((Rect.new (start_rect.x + dx) (start_rect.y + dy)
          start_rect.width start_rect.height).constrain
          sel.screen_width sel.screen_height) }
    | none => sel
  | .Resizing edge =>
    match sel.drag_start_rect with
    | some start_rect =>
      { sel with rect := some (sel.apply_resize start_rect edge dx dy) }
    | none => sel

/-- Selection::end_drag. -/
def Selection.end_drag (sel : Selection) : Selection :=
  { sel with
    rect := sel.rect.map (fun r =>
      r.normalized.constrain sel.screen_width sel.screen_height)
    drag_mode := .None
    drag_start_rect := none }

/-- Rounding of f32 as in Rust: nearest integer, halves away from zero. -/
def rustRound (q : ℚ) : ℤ :=
  if 0 ≤ q then ⌊q + 1 / 2⌋ else -⌊-q + 1 / 2⌋

/-- Selection::get_crop_region: round the normalized rect to integers. -/
def Selection.get_crop_region (sel : Selection) : Option (ℤ × ℤ × ℤ × ℤ) :=
  match sel.rect with
  | none => none
  | some r0 =>
    let rect := r0.normalized
    some (rustRound rect.x, rustRound rect.y,
      rustRound rect.width, rustRound rect.height)

/-- Selection::has_valid_selection. -/
def Selection.has_valid_selection (sel : Selection) : Prop :=
  match sel.rect with
  | some rect => rect.normalized.width ≥ MIN_SIZE ∧ rect.normalized.height ≥ MIN_SIZE
  | none => False

instance (sel : Selection) : Decidable sel.has_valid_selection := by
  unfold Selection.has_valid_selection
  cases sel.rect with
  | none => exact instDecidableFalse
  | some r => exact instDecidableAnd

/-- Selection state for the C3 scenario: 1920x1080 screen with an existing
rect (100, 100, 400, 300). -/
def sC3 : Selection :=
  { Selection.new 1920 1080 with rect := some (Rect.new 100 100 400 300) }

/-- Selection state mid-drag for the C3 witness: resizing the Right edge,
drag started at (500, 250) on the rect (100, 100, 400, 300). -/
def sC3w : Selection :=
  { Selection.new 1920 1080 with
    rect := some (Rect.new 100 100 400 300)
    drag_mode := DragMode.Resizing .Right
    drag_start := (500, 250)
    drag_start_rect := some (Rect.new 100 100 400 300) }

/-- Canvas::get_snap_position (canvas.rs): the point the magnifier centers
on, per drag mode and resize edge. -/
def getSnapPosition (sel_rect : Rect) (drag_mode : DragMode)
    (cursor_x cursor_y : ℚ) : ℚ × ℚ :=
  match drag_mode with
  | .Creating => (cursor_x, cursor_y)
  | .Resizing edge =>
    match edge with
    | .TopLeft => (sel_rect.x, sel_rect.y)
    | .TopRight => (sel_rect.x + sel_rect.width, sel_rect.y)
    | .BottomRight => (sel_rect.x + sel_rect.width, sel_rect.y + sel_rect.height)
    | .BottomLeft => (sel_rect.x, sel_rect.y + sel_rect.height)
    | .Top => (cursor_x, sel_rect.y)
    | .Bottom => (cursor_x, sel_rect.y + sel_rect.height)
    | .Left => (sel_rect.x, cursor_y)
    | .Right => (sel_rect.x + sel_rect.width, cursor_y)
  | _ => (cursor_x, cursor_y)

/-- The magnifier snap position as computed in Canvas::snapshot: the snapshot
draw path normalizes the current rect and passes it to get_snap_position
together with the drag mode and raw cursor position. -/
def Selection.magnifierSnap (sel : Selection) (cursor_x cursor_y : ℚ) :
    Option (ℚ × ℚ) :=
  match sel.rect with
  | none => none
  | some r0 => some (getSnapPosition r0.normalized sel.drag_mode cursor_x cursor_y)

/-- The connect_drag_end closure in Canvas::setup_controllers: ends the drag,
then computes the cursor name at gesture.start_point() — the press position.
The release offsets passed to the closure are ignored by the code, so the
second argument is unused. -/
def Selection.onDragEnd (sel : Selection) (press _rel : ℚ × ℚ) :
    Selection × String :=
  let sel2 := sel.end_drag
  (sel2, sel2.cursor_for_position press.1 press.2)

/-- Selection state after creating a rect by dragging from (100,100) to
(500,400) on a 1920x1080 screen, with the button still down. -/
def sC6 : Selection :=
  ((Selection.new 1920 1080).start_drag 100 100).update_drag 500 400

/-- Selection with one predefined region, for the C7 witness. -/
def sC7 : Selection :=
  { Selection.new 1920 1080 with predefined_regions := [Rect.new 10 10 100 100] }

/-- Selection mid-drag resizing the Top edge, for the C9 witness. -/
def sC9 : Selection :=
  { Selection.new 1920 1080 with
    rect := some (Rect.new 100 100 400 300)
    drag_mode := DragMode.Resizing .Top }

/-- Spec wording: a point inside the handle square of side HANDLE_SIZE
centered on (cx, cy). -/
def InCornerSquare (cx cy x y : ℚ) : Prop :=
  cx - HANDLE_SIZE / 2 ≤ x ∧ x ≤ cx + HANDLE_SIZE / 2 ∧
  cy - HANDLE_SIZE / 2 ≤ y ∧ y ≤ cy + HANDLE_SIZE / 2

instance (cx cy x y : ℚ) : Decidable (InCornerSquare cx cy x y) := by
  unfold InCornerSquare
  infer_instance

/-- Spec wording: the first corner whose handle square contains the point,
in the order TopLeft, TopRight, BottomRight, BottomLeft. -/
def specCorner (n : Rect) (x y : ℚ) : Option ResizeEdge :=
  if InCornerSquare n.x n.y x y then some .TopLeft
  else if InCornerSquare (n.x + n.width) n.y x y then some .TopRight
  else if InCornerSquare (n.x + n.width) (n.y + n.height) x y then some .BottomRight
  else if InCornerSquare n.x (n.y + n.height) x y then some .BottomLeft
  else none

/-- Spec wording with INCLUSIVE bounds on the orthogonal coordinate: a point
within the EDGE_GRAB_WIDTH band along a side whose orthogonal coordinate lies
between the two adjacent corner half-extents, inclusively. -/
def specEdgeIncl (n : Rect) (x y : ℚ) : Option ResizeEdge :=
  if (n.x + HANDLE_SIZE / 2 ≤ x ∧ x ≤ n.x + n.width - HANDLE_SIZE / 2) ∧
      n.y - EDGE_GRAB_WIDTH ≤ y ∧ y ≤ n.y + EDGE_GRAB_WIDTH then some .Top
  else if (n.x + HANDLE_SIZE / 2 ≤ x ∧ x ≤ n.x + n.width - HANDLE_SIZE / 2) ∧
      n.y + n.height - EDGE_GRAB_WIDTH ≤ y ∧ y ≤ n.y + n.height + EDGE_GRAB_WIDTH then some .Bottom
  else if (n.y + HANDLE_SIZE / 2 ≤ y ∧ y ≤ n.y + n.height - HANDLE_SIZE / 2) ∧
      n.x - EDGE_GRAB_WIDTH ≤ x ∧ x ≤ n.x + EDGE_GRAB_WIDTH then some .Left
  else if (n.y + HANDLE_SIZE / 2 ≤ y ∧ y ≤ n.y + n.height - HANDLE_SIZE / 2) ∧
      n.x + n.width - EDGE_GRAB_WIDTH ≤ x ∧ x ≤ n.x + n.width + EDGE_GRAB_WIDTH then some .Right
  else none

/-- Spec wording exactly as the claim states it: the orthogonal coordinate
must fall STRICTLY between the two adjacent corner half-extents. -/
def specEdgeStrict (n : Rect) (x y : ℚ) : Option ResizeEdge :=
  if (n.x + HANDLE_SIZE / 2 < x ∧ x < n.x + n.width - HANDLE_SIZE / 2) ∧
      n.y - EDGE_GRAB_WIDTH ≤ y ∧ y ≤ n.y + EDGE_GRAB_WIDTH then some .Top
  else if (n.x + HANDLE_SIZE / 2 < x ∧ x < n.x + n.width - HANDLE_SIZE / 2) ∧
      n.y + n.height - EDGE_GRAB_WIDTH ≤ y ∧ y ≤ n.y + n.height + EDGE_GRAB_WIDTH then some .Bottom
  else if (n.y + HANDLE_SIZE / 2 < y ∧ y < n.y + n.height - HANDLE_SIZE / 2) ∧
      n.x - EDGE_GRAB_WIDTH ≤ x ∧ x ≤ n.x + EDGE_GRAB_WIDTH then some .Left
  else if (n.y + HANDLE_SIZE / 2 < y ∧ y < n.y + n.height - HANDLE_SIZE / 2) ∧
      n.x + n.width - EDGE_GRAB_WIDTH ≤ x ∧ x ≤ n.x + n.width + EDGE_GRAB_WIDTH then some .Right
  else none

/-- Spec wording: a point inside the normalized rect (inclusive). -/
def specInterior (n : Rect) (x y : ℚ) : Prop :=
  n.x ≤ x ∧ x ≤ n.x + n.width ∧ n.y ≤ y ∧ y ≤ n.y + n.height

instance (n : Rect) (x y : ℚ) : Decidable (specInterior n x y) := by
  unfold specInterior
  infer_instance

/-- Hit test as the spec describes it, with inclusive edge-zone bounds:
corner over edge over interior over exterior. -/
def specHitTestIncl (sel : Selection) (x y : ℚ) : DragMode :=
  match sel.rect with
  | none => .Creating
  | some r0 =>
    let n := r0.normalized
    match specCorner n x y with
    | some e => .Resizing e
    | none =>
      match specEdgeIncl n x y with
      | some e => .Resizing e
      | none => if specInterior n x y then .Moving else .Creating

/-- Hit test exactly as the claim states it, with strict edge-zone bounds on
the orthogonal coordinate. -/
def specHitTestStrict (sel : Selection) (x y : ℚ) : DragMode :=
  match sel.rect with
  | none => .Creating
  | some r0 =>
    let n := r0.normalized
    match specCorner n x y with
    | some e => .Resizing e
    | none =>
      match specEdgeStrict n x y with
      | some e => .Resizing e
      | none => if specInterior n x y then .Moving else .Creating

/-- Selection used for the C4 counterexample. -/
def sC4 : Selection :=
  { Selection.new 1920 1080 with rect := some (Rect.new 100 100 400 300) }

/-- Canvas::select_all: install the full-screen rect, bypassing the drag
machinery (the canvas screen dimensions equal the Selection ones). -/
def Selection.select_all (sel : Selection) : Selection :=
  { sel with rect := some (Rect.new 0 0 sel.screen_width sel.screen_height) }

/-- Selection states reachable through the public mutating operations other
than select_predefined_region. -/
inductive ReachableCore : Selection → Prop where
  | init (W H : ℚ) (rs : List Rect) :
      ReachableCore (Selection.with_predefined_regions W H rs)
  | startDrag {s : Selection} (x y : ℚ) :
      ReachableCore s → ReachableCore (s.start_drag x y)
  | updateDrag {s : Selection} (x y : ℚ) :
      ReachableCore s → ReachableCore (s.update_drag x y)
  | endDrag {s : Selection} :
      ReachableCore s → ReachableCore s.end_drag
  | selectAll {s : Selection} :
      ReachableCore s → ReachableCore s.select_all

/-- Selection states reachable through all five public mutating operations,
including select_predefined_region. -/
inductive ReachableFull : Selection → Prop where
  | init (W H : ℚ) (rs : List Rect) :
      ReachableFull (Selection.with_predefined_regions W H rs)
  | startDrag {s : Selection} (x y : ℚ) :
      ReachableFull s → ReachableFull (s.start_drag x y)
  | updateDrag {s : Selection} (x y : ℚ) :
      ReachableFull s → ReachableFull (s.update_drag x y)
  | endDrag {s : Selection} :
      ReachableFull s → ReachableFull s.end_drag
  | selectAll {s : Selection} :
      ReachableFull s → ReachableFull s.select_all
  | selectPre {s : Selection} (i : ℕ) :
      ReachableFull s → ReachableFull (s.select_predefined_region i).2

/-- State reached by select-all from a fresh 1920x1080 session, for the C2
witness. -/
def sC2w : Selection :=
  (Selection.with_predefined_regions 1920 1080 []).select_all

/-- State reached by selecting an undersized predefined region, for the C2
counterexample. -/
def sC2 : Selection :=
  ((Selection.with_predefined_regions 1920 1080
    [Rect.new 0 0 5 5]).select_predefined_region 0).2

/-- Split a character list at every character satisfying p, keeping empty
segments (the behavior of Rust str::split). -/
def splitOnPChars (p : Char → Bool) (s : List Char) : List (List Char) :=
  s.foldr (fun c acc =>
    if p c then [] :: acc
    else
      match acc with
      | [] => [[c]]
      | t :: ts => (c :: t) :: ts) [[]]

/-- str::trim — drop whitespace from both ends. -/
def trimChars (s : List Char) : List Char :=
  ((s.dropWhile Char.isWhitespace).reverse.dropWhile Char.isWhitespace).reverse

/-- str::split_whitespace — split on whitespace runs, no empty tokens. -/
def splitWhitespaceChars (s : List Char) : List (List Char) :=
  (splitOnPChars Char.isWhitespace s).filter (fun t => !t.isEmpty)

/-- str::split(",") — comma split keeping empty parts. -/
def splitCommaChars (s : List Char) : List (List Char) :=
  splitOnPChars (fun c => c == ',') s

/-- Numeric value of a digit character. -/
def digitToNat (c : Char) : ℕ := c.toNat - 48

/-- Value of a digit string, most significant first. -/
def natOfDigits (s : List Char) : ℕ :=
  s.foldl (fun a c => 10 * a + digitToNat c) 0

/-- Modelled from the spec: the external number parser (f32::from_str of the
Rust standard library, an external collaborator), restricted to unsigned
finite decimal literals "digits", "digits.digits", "digits." or ".digits";
exponent and infinity/nan forms are not modelled. -/
def parseUnsigned (s : List Char) : Option ℚ :=
  match splitOnPChars (fun c => c == '.') s with
  | [a] =>
    if a ≠ [] ∧ a.all Char.isDigit then some (natOfDigits a) else none
  | [a, b] =>
    if (a ≠ [] ∨ b ≠ []) ∧ a.all Char.isDigit ∧ b.all Char.isDigit then
      some ((natOfDigits a : ℚ) + (natOfDigits b : ℚ) / (10 : ℚ) ^ b.length)
    else none
  | _ => none

/-- Modelled from the spec: f32::from_str with an optional leading sign. -/
def parseNum (s : List Char) : Option ℚ :=
  match s with
  | '+' :: rest => parseUnsigned rest
  | '-' :: rest => Option.map Neg.neg (parseUnsigned rest)
  | _ => parseUnsigned s

/-- One comma-pair "x,y" of Rect::parse: split on commas, require exactly
two parts, parse both. -/
def parsePair (t : List Char) : Option (ℚ × ℚ) :=
  match splitCommaChars t with
  | [a, b] =>
    match parseNum a, parseNum b with
    | some x, some y => some (x, y)
    | _, _ => none
  | _ => none

/-- Rect::parse: trim, split on whitespace into exactly two comma-pairs
giving opposite corners, derive width and height, reject non-positive
dimensions. -/
def Rect.parse (s : List Char) : Option Rect :=
  match splitWhitespaceChars (trimChars s) with
  | [p1, p2] =>
    match parsePair p1 with
    | some (x1, y1) =>
      match parsePair p2 with
      | some (x2, y2) =>
        if 0 < x2 - x1 ∧ 0 < y2 - y1 then
          some (Rect.new x1 y1 (x2 - x1) (y2 - y1))
        else none
      | none => none
    | none => none
  | _ => none

/-- The loop of read_predefined_regions_from_stdin: parse each line, keep
the successes in order. -/
def parseRegionLines : List (List Char) → List Rect
  | [] => []
  | l :: ls =>
    match Rect.parse l with
    | some r => r :: parseRegionLines ls
    | none => parseRegionLines ls

/-- The character list of the scenario input line "10,10 110,110". -/
def line1 : List Char := ['1', '0', ',', '1', '0', ' ', '1', '1', '0', ',', '1', '1', '0']

/-- The character list of the malformed scenario input line "bad". -/
def line2 : List Char := ['b', 'a', 'd']

example : splitWhitespaceChars (trimChars line1)
    = [['1','0',',','1','0'], ['1','1','0',',','1','1','0']] := by decide
example : parsePair ['1','0',',','1','0'] = some (10, 10) := by decide
example : parsePair ['1','1','0',',','1','1','0'] = some (110, 110) := by decide
example : splitWhitespaceChars (trimChars line2) = [['b','a','d']] := by decide
example : parsePair ['b','a','d'] = none := by decide

/-- Spec wording: t is a comma-pair of numbers with values x and y. -/
def IsCommaPairOf (t : List Char) (x y : ℚ) : Prop :=
  ∃ a b, splitCommaChars t = [a, b] ∧ parseNum a = some x ∧ parseNum b = some y

theorem rmax_eq (a b : ℚ) : rmax a b = max a b := by
  rw [rmax, max_def]

theorem rmin_eq (a b : ℚ) : rmin a b = min a b := by
  rw [rmin, min_def]

/-- Helper: Rect::constrain always yields an in-bounds rect whose size is at
least the minimum of MIN_SIZE and the screen bound, with no hypothesis on the
screen dimensions. -/
theorem constrain_bounds_general (r : Rect) (W H : ℚ) :
    0 ≤ (r.constrain W H).x ∧ 0 ≤ (r.constrain W H).y ∧
    (r.constrain W H).x + (r.constrain W H).width ≤ W ∧
    (r.constrain W H).y + (r.constrain W H).height ≤ H ∧
    min MIN_SIZE W ≤ (r.constrain W H).width ∧
    min MIN_SIZE H ≤ (r.constrain W H).height := by
  unfold Rect.constrain
  simp only [rmax_eq, rmin_eq]
  refine ⟨?_, ?_, ?_, ?_, ?_, ?_⟩ <;>
    simp only [max_def, min_def, gt_iff_lt] <;>
    split_ifs <;> linarith

/-- C1: for every Rect r and screen dimensions W, H with W ≥ MIN_SIZE and
H ≥ MIN_SIZE, constrain(r, W, H) returns a rect with x ≥ 0, y ≥ 0,
x + width ≤ W, y + height ≤ H, width ≥ MIN_SIZE and height ≥ MIN_SIZE. -/
theorem C1_constrain_bounds (r : Rect) (W H : ℚ)
    (hW : MIN_SIZE ≤ W) (hH : MIN_SIZE ≤ H) :
    0 ≤ (r.constrain W H).x ∧ 0 ≤ (r.constrain W H).y ∧
    (r.constrain W H).x + (r.constrain W H).width ≤ W ∧
    (r.constrain W H).y + (r.constrain W H).height ≤ H ∧
    MIN_SIZE ≤ (r.constrain W H).width ∧
    MIN_SIZE ≤ (r.constrain W H).height := by
  obtain ⟨h1, h2, h3, h4, h5, h6⟩ := constrain_bounds_general r W H
  rw [min_eq_left hW] at h5
  rw [min_eq_left hH] at h6
  exact ⟨h1, h2, h3, h4, h5, h6⟩

/-- Witness for C1 at the out-of-bounds, undersized, negative-height rect
(-50, 2000, 5, -3) on a 1920x1080 screen. -/
theorem C1_constrain_bounds_witness :
    0 ≤ ((Rect.new (-50) 2000 5 (-3)).constrain 1920 1080).x ∧
    0 ≤ ((Rect.new (-50) 2000 5 (-3)).constrain 1920 1080).y ∧
    ((Rect.new (-50) 2000 5 (-3)).constrain 1920 1080).x
      + ((Rect.new (-50) 2000 5 (-3)).constrain 1920 1080).width ≤ 1920 ∧
    ((Rect.new (-50) 2000 5 (-3)).constrain 1920 1080).y
      + ((Rect.new (-50) 2000 5 (-3)).constrain 1920 1080).height ≤ 1080 ∧
    MIN_SIZE ≤ ((Rect.new (-50) 2000 5 (-3)).constrain 1920 1080).width ∧
    MIN_SIZE ≤ ((Rect.new (-50) 2000 5 (-3)).constrain 1920 1080).height :=
  C1_constrain_bounds (Rect.new (-50) 2000 5 (-3)) 1920 1080
    (by decide) (by decide)

/-- C5: on a 1920x1080 screen with no prior rect, start_drag(100,100),
update_drag(500,400), end_drag yields get_crop_region = (100,100,400,300)
and a valid selection. -/
theorem C5_create_drag_scenario :
    ((((Selection.new 1920 1080).start_drag 100 100).update_drag 500 400).end_drag).get_crop_region
      = some (100, 100, 400, 300) ∧
    ((((Selection.new 1920 1080).start_drag 100 100).update_drag 500 400).end_drag).has_valid_selection := by
  norm_num [Selection.new, Selection.start_drag, Selection.update_drag, Selection.end_drag,
    Selection.get_crop_region, Selection.has_valid_selection, Selection.hit_test,
    Selection.hit_test_corner, Selection.hit_test_edge, Selection.get_corner_handles,
    firstHandleAt, Rect.new, Rect.normalized, Rect.contains, Rect.constrain, Rect.right,
    Rect.bottom, rustRound, rmax, rmin, MIN_SIZE, HANDLE_SIZE, EDGE_GRAB_WIDTH]

/-- C10: on a Selection without a rect, end_drag leaves the rect absent,
clears drag_mode and drag_start_rect, and leaves every other field
(screen dimensions, drag_start, predefined_regions, hovered_region)
unchanged. -/
theorem C10_end_drag_frame (sel : Selection) (h : sel.rect = none) :
    sel.end_drag.rect = none ∧ sel.end_drag.drag_mode = DragMode.None ∧
    sel.end_drag.drag_start_rect = none ∧
    sel.end_drag.screen_width = sel.screen_width ∧
    sel.end_drag.screen_height = sel.screen_height ∧
    sel.end_drag.drag_start = sel.drag_start ∧
    sel.end_drag.predefined_regions = sel.predefined_regions ∧
    sel.end_drag.hovered_region = sel.hovered_region := by
  simp [Selection.end_drag, h]

/-- Witness for C10 at a fresh 1920x1080 Selection. -/
theorem C10_end_drag_frame_witness :
    (Selection.new 1920 1080).end_drag.rect = none ∧
    (Selection.new 1920 1080).end_drag.drag_mode = DragMode.None ∧
    (Selection.new 1920 1080).end_drag.drag_start_rect = none ∧
    (Selection.new 1920 1080).end_drag.screen_width = (Selection.new 1920 1080).screen_width ∧
    (Selection.new 1920 1080).end_drag.screen_height = (Selection.new 1920 1080).screen_height ∧
    (Selection.new 1920 1080).end_drag.drag_start = (Selection.new 1920 1080).drag_start ∧
    (Selection.new 1920 1080).end_drag.predefined_regions = (Selection.new 1920 1080).predefined_regions ∧
    (Selection.new 1920 1080).end_drag.hovered_region = (Selection.new 1920 1080).hovered_region :=
  C10_end_drag_frame (Selection.new 1920 1080) rfl

/-- C3: during a Resizing(edge) drag, update_drag applies the per-edge
transform to the drag-start snapshot with delta relative to drag_start (never
incrementally), then normalizes and constrains; the eight anchor transforms
adjust exactly the adjacent coordinates and dimensions; and the top-left
resize scenario on rect (100,100,400,300) with drag from (100,100) to
(150,150) ends at rect (150,150,350,250). -/
theorem C3_resize_from_snapshot (edge : ResizeEdge) :
    (∀ (s : Rect) (dx dy : ℚ),
      resizeTransform s .TopLeft dx dy = ⟨s.x + dx, s.y + dy, s.width - dx, s.height - dy⟩ ∧
      resizeTransform s .Top dx dy = ⟨s.x, s.y + dy, s.width, s.height - dy⟩ ∧
      resizeTransform s .TopRight dx dy = ⟨s.x, s.y + dy, s.width + dx, s.height - dy⟩ ∧
      resizeTransform s .Right dx dy = ⟨s.x, s.y, s.width + dx, s.height⟩ ∧
      resizeTransform s .BottomRight dx dy = ⟨s.x, s.y, s.width + dx, s.height + dy⟩ ∧
      resizeTransform s .Bottom dx dy = ⟨s.x, s.y, s.width, s.height + dy⟩ ∧
      resizeTransform s .BottomLeft dx dy = ⟨s.x + dx, s.y, s.width - dx, s.height + dy⟩ ∧
      resizeTransform s .Left dx dy = ⟨s.x + dx, s.y, s.width - dx, s.height⟩) ∧
    (∀ (sel : Selection) (start_rect : Rect) (x y : ℚ),
      sel.drag_mode = DragMode.Resizing edge →
      sel.drag_start_rect = some start_rect →
      (sel.update_drag x y).rect = some ((resizeTransform start_rect edge
        (x - sel.drag_start.1) (y - sel.drag_start.2)).normalized.constrain
        sel.screen_width sel.screen_height)) ∧
    (((sC3.start_drag 100 100).update_drag 150 150).end_drag).rect
      = some (Rect.new 150 150 350 250) := by
  refine ⟨fun s dx dy => ⟨rfl, rfl, rfl, rfl, rfl, rfl, rfl, rfl⟩, ?_, ?_⟩
  · intro sel start_rect x y h1 h2
    simp [Selection.update_drag, h1, h2, Selection.apply_resize]
  · have hht : sC3.hit_test 100 100 = DragMode.Resizing ResizeEdge.TopLeft := by
      norm_num [sC3, Selection.new, Selection.hit_test, Selection.hit_test_corner,
        Selection.get_corner_handles, firstHandleAt, Rect.contains, Rect.normalized,
        Rect.new, Rect.right, Rect.bottom, HANDLE_SIZE]
    have hsd : sC3.start_drag 100 100 = { sC3 with
        drag_mode := DragMode.Resizing ResizeEdge.TopLeft
        drag_start := (100, 100)
        drag_start_rect := some (Rect.new 100 100 400 300) } := by
      rw [Selection.start_drag, hht]
      simp [sC3, Selection.new]
    have hud : (sC3.start_drag 100 100).update_drag 150 150 = { sC3 with
        rect := some (Rect.new 150 150 350 250)
        drag_mode := DragMode.Resizing ResizeEdge.TopLeft
        drag_start := (100, 100)
        drag_start_rect := some (Rect.new 100 100 400 300) } := by
      rw [hsd, Selection.update_drag]
      norm_num [sC3, Selection.new, Selection.apply_resize, resizeTransform,
        Rect.normalized, Rect.constrain, Rect.new, rmax, rmin, MIN_SIZE]
    rw [hud, Selection.end_drag]
    norm_num [sC3, Selection.new, Rect.normalized, Rect.constrain, Rect.new,
      rmax, rmin, MIN_SIZE]

/-- Witness for C3: a concrete Right-edge resize update computed from the
drag-start snapshot. -/
theorem C3_resize_from_snapshot_witness :
    (sC3w.update_drag 600 300).rect = some ((resizeTransform (Rect.new 100 100 400 300)
      .Right (600 - sC3w.drag_start.1) (300 - sC3w.drag_start.2)).normalized.constrain
      sC3w.screen_width sC3w.screen_height) :=
  (C3_resize_from_snapshot .Right).2.1 sC3w (Rect.new 100 100 400 300) 600 300 rfl rfl

/-- C7: select_predefined_region(i) reports whether i indexes
predefined_regions; on success it installs the region verbatim (no constrain
or normalize pass), after which get_crop_region is the rounded region and
has_valid_selection holds exactly when the normalized region meets MIN_SIZE
in both dimensions. -/
theorem C7_select_predefined (sel : Selection) (i : ℕ) :
    ((sel.select_predefined_region i).1 = true ↔ i < sel.predefined_regions.length) ∧
    (∀ r : Rect, sel.predefined_regions[i]? = some r →
      (sel.select_predefined_region i).2 = { sel with rect := some r } ∧
      (sel.select_predefined_region i).2.get_crop_region
        = some (rustRound r.normalized.x, rustRound r.normalized.y,
            rustRound r.normalized.width, rustRound r.normalized.height) ∧
      ((sel.select_predefined_region i).2.has_valid_selection ↔
        MIN_SIZE ≤ r.normalized.width ∧ MIN_SIZE ≤ r.normalized.height)) := by
  constructor
  · cases h : sel.predefined_regions[i]? with
    | none =>
      have hlen := List.getElem?_eq_none_iff.mp h
      simp [Selection.select_predefined_region, h]
      omega
    | some r =>
      obtain ⟨hlt, _⟩ := List.getElem?_eq_some_iff.mp h
      simp [Selection.select_predefined_region, h, hlt]
  · intro r hr
    refine ⟨?_, ?_, ?_⟩
    · simp [Selection.select_predefined_region, hr]
    · simp [Selection.select_predefined_region, hr, Selection.get_crop_region]
    · simp [Selection.select_predefined_region, hr, Selection.has_valid_selection,
        ge_iff_le, and_comm]

/-- Witness for C7: selecting region 0 of a one-region list. -/
theorem C7_select_predefined_witness :
    (sC7.select_predefined_region 0).2 = { sC7 with rect := some (Rect.new 10 10 100 100) } ∧
    (sC7.select_predefined_region 0).2.get_crop_region
      = some (rustRound (Rect.new 10 10 100 100).normalized.x,
          rustRound (Rect.new 10 10 100 100).normalized.y,
          rustRound (Rect.new 10 10 100 100).normalized.width,
          rustRound (Rect.new 10 10 100 100).normalized.height) ∧
    ((sC7.select_predefined_region 0).2.has_valid_selection ↔
      MIN_SIZE ≤ (Rect.new 10 10 100 100).normalized.width ∧
      MIN_SIZE ≤ (Rect.new 10 10 100 100).normalized.height) :=
  (C7_select_predefined sC7 0).2 (Rect.new 10 10 100 100) rfl

/-- C9: the magnifier snap position is the raw cursor while Creating; the
exact corner of the current normalized rect for corner resizes; and the
mixed pair (cursor on the free axis, rect side on the constrained axis) for
midpoint resizes. -/
theorem C9_snap_position (sel : Selection) (r : Rect) (cx cy : ℚ)
    (h : sel.rect = some r) :
    (sel.drag_mode = DragMode.Creating → sel.magnifierSnap cx cy = some (cx, cy)) ∧
    (sel.drag_mode = DragMode.Resizing .TopLeft →
      sel.magnifierSnap cx cy = some (r.normalized.x, r.normalized.y)) ∧
    (sel.drag_mode = DragMode.Resizing .TopRight →
      sel.magnifierSnap cx cy = some (r.normalized.x + r.normalized.width, r.normalized.y)) ∧
    (sel.drag_mode = DragMode.Resizing .BottomRight →
      sel.magnifierSnap cx cy = some (r.normalized.x + r.normalized.width,
        r.normalized.y + r.normalized.height)) ∧
    (sel.drag_mode = DragMode.Resizing .BottomLeft →
      sel.magnifierSnap cx cy = some (r.normalized.x, r.normalized.y + r.normalized.height)) ∧
    (sel.drag_mode = DragMode.Resizing .Top →
      sel.magnifierSnap cx cy = some (cx, r.normalized.y)) ∧
    (sel.drag_mode = DragMode.Resizing .Bottom →
      sel.magnifierSnap cx cy = some (cx, r.normalized.y + r.normalized.height)) ∧
    (sel.drag_mode = DragMode.Resizing .Left →
      sel.magnifierSnap cx cy = some (r.normalized.x, cy)) ∧
    (sel.drag_mode = DragMode.Resizing .Right →
      sel.magnifierSnap cx cy = some (r.normalized.x + r.normalized.width, cy)) := by
  refine ⟨?_, ?_, ?_, ?_, ?_, ?_, ?_, ?_, ?_⟩ <;>
    (intro hm; simp [Selection.magnifierSnap, h, hm, getSnapPosition])

/-- Witness for C9: Top-edge resize mixes the live cursor x with the rect
top y. -/
theorem C9_snap_position_witness :
    sC9.magnifierSnap 123 456 = some (123, (Rect.new 100 100 400 300).normalized.y) :=
  (C9_snap_position sC9 (Rect.new 100 100 400 300) 123 456 rfl).2.2.2.2.2.1 rfl

/-- C6 (code bug): the drag-end handler ignores the release position — its
result does not depend on the release argument at all — and it computes the
cursor from the press position. After creating a rect by dragging from
(100,100) to (500,400), the handler reports the nw-resize cursor (the value
at the press point), while the cursor computed at the release point would be
se-resize. -/
theorem C6_release_cursor_from_press :
    (∀ (sel : Selection) (press rel1 rel2 : ℚ × ℚ),
      sel.onDragEnd press rel1 = sel.onDragEnd press rel2) ∧
    (sC6.onDragEnd (100, 100) (500, 400)).2 = "nw-resize" ∧
    sC6.end_drag.cursor_for_position 500 400 = "se-resize" := by
  have h6 : sC6 = { Selection.new 1920 1080 with
      rect := some (Rect.new 100 100 400 300)
      drag_mode := DragMode.Creating
      drag_start := (100, 100) } := by
    have hht : (Selection.new 1920 1080).hit_test 100 100 = DragMode.Creating := by
      norm_num [Selection.new, Selection.hit_test, Selection.hit_test_corner,
        Selection.hit_test_edge, Selection.get_corner_handles]
    have hsd : (Selection.new 1920 1080).start_drag 100 100 = { Selection.new 1920 1080 with
        rect := some (Rect.new 100 100 0 0)
        drag_mode := DragMode.Creating
        drag_start := (100, 100) } := by
      rw [Selection.start_drag, hht]
      simp [Selection.new]
    rw [sC6, hsd, Selection.update_drag]
    norm_num [Selection.new, Rect.new]
  have hed : sC6.end_drag = { Selection.new 1920 1080 with
      rect := some (Rect.new 100 100 400 300)
      drag_mode := DragMode.None
      drag_start := (100, 100) } := by
    rw [h6, Selection.end_drag]
    norm_num [Selection.new, Rect.normalized, Rect.constrain, Rect.new,
      rmax, rmin, MIN_SIZE]
  refine ⟨fun _ _ _ _ => rfl, ?_, ?_⟩
  · show (sC6.end_drag).cursor_for_position 100 100 = "nw-resize"
    rw [hed]
    norm_num [Selection.cursor_for_position, Selection.hit_test_corner,
      Selection.get_corner_handles, firstHandleAt, Rect.contains, Rect.normalized,
      Rect.new, Rect.right, Rect.bottom, HANDLE_SIZE, Selection.new,
      ResizeEdge.cursor_name]
    exact fun hcontra => DragMode.noConfusion hcontra
  · rw [hed]
    norm_num [Selection.cursor_for_position, Selection.hit_test_corner,
      Selection.get_corner_handles, firstHandleAt, Rect.contains, Rect.normalized,
      Rect.new, Rect.right, Rect.bottom, HANDLE_SIZE, Selection.new,
      ResizeEdge.cursor_name]
    exact fun hcontra => DragMode.noConfusion hcontra

/-- Normalization is idempotent. -/
theorem normalized_idem (r : Rect) : r.normalized.normalized = r.normalized := by
  unfold Rect.normalized
  split_ifs <;> simp_all <;> linarith

/-- A corner handle rect contains a point exactly when the point is in the
HANDLE_SIZE square centered on the corner. -/
theorem contains_handle_iff (a b x y : ℚ) :
    (Rect.new (a - HANDLE_SIZE / 2) (b - HANDLE_SIZE / 2) HANDLE_SIZE HANDLE_SIZE).contains x y
      ↔ InCornerSquare a b x y := by
  have hn : (Rect.new (a - HANDLE_SIZE / 2) (b - HANDLE_SIZE / 2)
        HANDLE_SIZE HANDLE_SIZE).normalized
      = Rect.new (a - HANDLE_SIZE / 2) (b - HANDLE_SIZE / 2) HANDLE_SIZE HANDLE_SIZE := by
    simp only [Rect.normalized, Rect.new]
    norm_num [HANDLE_SIZE]
  simp only [Rect.contains]
  rw [hn]
  simp only [Rect.new, InCornerSquare, ge_iff_le]
  constructor <;> rintro ⟨h1, h2, h3, h4⟩ <;>
    refine ⟨by linarith, by linarith, by linarith, by linarith⟩

/-- Selection::hit_test_corner agrees with the spec corner scan. -/
theorem hit_test_corner_spec (sel : Selection) (r0 : Rect) (x y : ℚ)
    (h : sel.rect = some r0) :
    sel.hit_test_corner x y = specCorner r0.normalized x y := by
  simp only [Selection.hit_test_corner, Selection.get_corner_handles, h,
    firstHandleAt, Rect.right, Rect.bottom, specCorner]
  simp only [contains_handle_iff]

/-- Selection::hit_test_edge agrees with the spec edge scan with inclusive
orthogonal bounds. -/
theorem hit_test_edge_spec (sel : Selection) (r0 : Rect) (x y : ℚ)
    (h : sel.rect = some r0) :
    sel.hit_test_edge x y = specEdgeIncl r0.normalized x y := by
  simp only [Selection.hit_test_edge, h, specEdgeIncl, Rect.right, Rect.bottom,
    ge_iff_le]

/-- C4 counterexample: at point (92, 107) on rect (100, 100, 400, 300), the
code returns Resizing Left (the orthogonal coordinate 107 equals the corner
half-extent boundary, which the inclusive code accepts) while the claim with
its strict bounds yields Creating, so the claim as stated is false. -/
theorem C4_hit_test_strict_counterexample :
    sC4.hit_test 92 107 = DragMode.Resizing ResizeEdge.Left ∧
    specHitTestStrict sC4 92 107 = DragMode.Creating ∧
    specHitTestStrict sC4 92 107 ≠ sC4.hit_test 92 107 := by
  have h1 : sC4.hit_test 92 107 = DragMode.Resizing ResizeEdge.Left := by
    norm_num [sC4, Selection.new, Selection.hit_test, Selection.hit_test_corner,
      Selection.hit_test_edge, Selection.get_corner_handles, firstHandleAt,
      Rect.contains, Rect.normalized, Rect.new, Rect.right, Rect.bottom,
      HANDLE_SIZE, EDGE_GRAB_WIDTH]
  have h2 : specHitTestStrict sC4 92 107 = DragMode.Creating := by
    norm_num [sC4, Selection.new, specHitTestStrict, specCorner, specEdgeStrict,
      specInterior, InCornerSquare, Rect.normalized, Rect.new, HANDLE_SIZE,
      EDGE_GRAB_WIDTH]
  refine ⟨h1, h2, ?_⟩
  rw [h1, h2]
  exact fun hc => DragMode.noConfusion hc

/-- C4 (amended): hit_test returns exactly one of corner-resize, edge-resize,
Moving or Creating — never None — with corner over edge over interior over
exterior precedence; the edge zones accept an orthogonal coordinate lying
between the adjacent corner half-extents INCLUSIVELY. -/
theorem C4_hit_test_inclusive (sel : Selection) (x y : ℚ) :
    sel.hit_test x y = specHitTestIncl sel x y ∧
    sel.hit_test x y ≠ DragMode.None := by
  have hmain : sel.hit_test x y = specHitTestIncl sel x y := by
    cases h : sel.rect with
    | none =>
      simp [Selection.hit_test, Selection.hit_test_corner,
        Selection.get_corner_handles, Selection.hit_test_edge, specHitTestIncl, h]
    | some r0 =>
      rw [Selection.hit_test, specHitTestIncl, h,
        hit_test_corner_spec sel r0 x y h, hit_test_edge_spec sel r0 x y h]
      cases hsc : specCorner r0.normalized x y with
      | some e => simp only [hsc]
      | none =>
        cases hse : specEdgeIncl r0.normalized x y with
        | some e => simp only [hsc, hse]
        | none =>
          simp only [hsc, hse, Rect.contains, normalized_idem, specInterior, ge_iff_le]
  refine ⟨hmain, fun hc => ?_⟩
  rw [hmain] at hc
  unfold specHitTestIncl at hc
  cases h : sel.rect with
  | none =>
    rw [h] at hc
    exact DragMode.noConfusion hc
  | some r0 =>
    rw [h] at hc
    cases hsc : specCorner r0.normalized x y with
    | some e =>
      simp only [hsc] at hc
      exact DragMode.noConfusion hc
    | none =>
      cases hse : specEdgeIncl r0.normalized x y with
      | some e =>
        simp only [hsc, hse] at hc
        exact DragMode.noConfusion hc
      | none =>
        simp only [hsc, hse] at hc
        by_cases hin : specInterior r0.normalized x y
        · rw [if_pos hin] at hc
          exact DragMode.noConfusion hc
        · rw [if_neg hin] at hc
          exact DragMode.noConfusion hc

/-- hit_test never returns DragMode.None. -/
theorem hit_test_ne_none (sel : Selection) (x y : ℚ) :
    sel.hit_test x y ≠ DragMode.None := by
  intro hc
  unfold Selection.hit_test at hc
  cases h1 : sel.hit_test_corner x y with
  | some e => rw [h1] at hc; exact DragMode.noConfusion hc
  | none =>
    rw [h1] at hc
    cases h2 : sel.hit_test_edge x y with
    | some e => rw [h2] at hc; exact DragMode.noConfusion hc
    | none =>
      rw [h2] at hc
      cases h3 : sel.rect with
      | none => rw [h3] at hc; exact DragMode.noConfusion hc
      | some r0 =>
        rw [h3] at hc
        have hc2 : (if r0.normalized.contains x y then DragMode.Moving
            else DragMode.Creating) = DragMode.None := hc
        by_cases hin : r0.normalized.contains x y
        · rw [if_pos hin] at hc2; exact DragMode.noConfusion hc2
        · rw [if_neg hin] at hc2; exact DragMode.noConfusion hc2

/-- start_drag sets drag_mode to the hit_test result. -/
theorem start_drag_drag_mode (sel : Selection) (x y : ℚ) :
    (sel.start_drag x y).drag_mode = sel.hit_test x y := by
  simp only [Selection.start_drag]
  split_ifs <;> rfl

/-- update_drag never changes drag_mode or the screen dimensions. -/
theorem update_drag_preserves (sel : Selection) (x y : ℚ) :
    (sel.update_drag x y).drag_mode = sel.drag_mode ∧
    (sel.update_drag x y).screen_width = sel.screen_width ∧
    (sel.update_drag x y).screen_height = sel.screen_height := by
  unfold Selection.update_drag
  cases h : sel.drag_mode with
  | None => exact ⟨h, rfl, rfl⟩
  | Creating => exact ⟨rfl, rfl, rfl⟩
  | Moving =>
    cases sel.drag_start_rect <;>
      exact ⟨by first | rfl | exact h, rfl, rfl⟩
  | Resizing e =>
    cases sel.drag_start_rect <;>
      exact ⟨by first | rfl | exact h, rfl, rfl⟩

/-- C2 (amended): every state reachable through start_drag, update_drag,
end_drag and select-all (excluding select_predefined_region, which installs
its region verbatim) with drag_mode None and a rect present satisfies the
bounds invariant, the size clamping to the screen bound when the screen is
smaller than MIN_SIZE. -/
theorem C2_reachable_invariant (s : Selection) (h : ReachableCore s) :
    s.drag_mode = DragMode.None → ∀ r : Rect, s.rect = some r →
    0 ≤ r.x ∧ 0 ≤ r.y ∧ r.x + r.width ≤ s.screen_width ∧
    r.y + r.height ≤ s.screen_height ∧
    min MIN_SIZE s.screen_width ≤ r.width ∧
    min MIN_SIZE s.screen_height ≤ r.height := by
  induction h with
  | init W H rs =>
    intro _ r hr
    exact absurd hr (by simp [Selection.with_predefined_regions])
  | startDrag x y hprev ih =>
    intro hmode r hr
    rw [start_drag_drag_mode] at hmode
    exact absurd hmode (hit_test_ne_none _ x y)
  | updateDrag x y hprev ih =>
    rename_i s0
    intro hmode r hr
    have hdm : s0.drag_mode = DragMode.None := by
      rw [← (update_drag_preserves s0 x y).1]
      exact hmode
    have heq : s0.update_drag x y = s0 := by
      simp [Selection.update_drag, hdm]
    rw [heq] at hr ⊢
    exact ih hdm r hr
  | endDrag hprev ih =>
    rename_i s0
    intro _ r hr
    have hr2 : s0.rect.map
        (fun rr => rr.normalized.constrain s0.screen_width s0.screen_height)
        = some r := hr
    rcases Option.map_eq_some'.mp hr2 with ⟨r0, _, hfr⟩
    have hb := constrain_bounds_general r0.normalized s0.screen_width s0.screen_height
    rw [hfr] at hb
    exact hb
  | selectAll hprev ih =>
    rename_i s0
    intro _ r hr
    have hr2 : some (Rect.new 0 0 s0.screen_width s0.screen_height) = some r := hr
    have hrr := Option.some.inj hr2
    subst hrr
    refine ⟨le_refl 0, le_refl 0, ?_, ?_, ?_, ?_⟩ <;>
      simp [Rect.new, Selection.select_all]

/-- Witness for C2 at the select-all state of a 1920x1080 session. -/
theorem C2_reachable_invariant_witness :
    0 ≤ (Rect.new 0 0 1920 1080).x ∧ 0 ≤ (Rect.new 0 0 1920 1080).y ∧
    (Rect.new 0 0 1920 1080).x + (Rect.new 0 0 1920 1080).width ≤ sC2w.screen_width ∧
    (Rect.new 0 0 1920 1080).y + (Rect.new 0 0 1920 1080).height ≤ sC2w.screen_height ∧
    min MIN_SIZE sC2w.screen_width ≤ (Rect.new 0 0 1920 1080).width ∧
    min MIN_SIZE sC2w.screen_height ≤ (Rect.new 0 0 1920 1080).height :=
  C2_reachable_invariant sC2w
    (ReachableCore.selectAll (ReachableCore.init 1920 1080 []))
    rfl (Rect.new 0 0 1920 1080) rfl

/-- C2 counterexample: selecting the undersized predefined region (0,0,5,5)
on a 1920x1080 screen reaches a state with drag_mode None whose rect has
width 5 < MIN_SIZE although the screen exceeds MIN_SIZE in both dimensions,
so the claimed invariant fails as stated. -/
theorem C2_predefined_violates_invariant :
    ReachableFull sC2 ∧ sC2.drag_mode = DragMode.None ∧
    sC2.rect = some (Rect.new 0 0 5 5) ∧
    MIN_SIZE ≤ sC2.screen_width ∧ MIN_SIZE ≤ sC2.screen_height ∧
    (Rect.new 0 0 5 5).width < MIN_SIZE := by
  refine ⟨ReachableFull.selectPre 0 (ReachableFull.init 1920 1080 [Rect.new 0 0 5 5]),
    rfl, rfl, ?_, ?_, ?_⟩ <;>
    norm_num [sC2, Selection.with_predefined_regions,
      Selection.select_predefined_region, Rect.new, MIN_SIZE]

/-- A comma-pair parses to (x, y) exactly when the spec predicate holds. -/
theorem parsePair_iff (t : List Char) (x y : ℚ) :
    parsePair t = some (x, y) ↔ IsCommaPairOf t x y := by
  unfold parsePair IsCommaPairOf
  cases hsc : splitCommaChars t with
  | nil => simp
  | cons a rest =>
    cases rest with
    | nil => simp
    | cons b rest2 =>
      cases rest2 with
      | nil =>
        dsimp only
        cases ha : parseNum a with
        | none => simp [ha]
        | some xa =>
          cases hb : parseNum b with
          | none => simp [ha, hb]
          | some yb =>
            dsimp only
            constructor
            · intro h
              obtain ⟨hx, hy⟩ := Prod.mk.injEq .. ▸ Option.some.inj h
              exact ⟨a, b, rfl, by rw [ha, hx], by rw [hb, hy]⟩
            · rintro ⟨a2, b2, hab, hpa, hpb⟩
              injection hab with e1 e2
              injection e2 with e2 _
              subst e1
              subst e2
              rw [ha] at hpa
              rw [hb] at hpb
              rw [Option.some.inj hpa, Option.some.inj hpb]
      | cons c rest3 => simp

/-- Rect::parse succeeds exactly on two whitespace-separated comma-pairs of
numbers with positive derived width and height, producing that rect. -/
theorem parse_characterization (s : List Char) (r : Rect) :
    Rect.parse s = some r ↔
    ∃ t1 t2 x1 y1 x2 y2,
      splitWhitespaceChars (trimChars s) = [t1, t2] ∧
      IsCommaPairOf t1 x1 y1 ∧ IsCommaPairOf t2 x2 y2 ∧
      0 < x2 - x1 ∧ 0 < y2 - y1 ∧
      r = Rect.new x1 y1 (x2 - x1) (y2 - y1) := by
  unfold Rect.parse
  cases hw : splitWhitespaceChars (trimChars s) with
  | nil => simp
  | cons p1 rest =>
    cases rest with
    | nil => simp
    | cons p2 rest2 =>
      cases rest2 with
      | nil =>
        simp only [← parsePair_iff]
        cases hp1 : parsePair p1 with
        | none => simp [hp1]
        | some v1 =>
          obtain ⟨x1, y1⟩ := v1
          cases hp2 : parsePair p2 with
          | none => simp [hp1, hp2]
          | some v2 =>
            obtain ⟨x2, y2⟩ := v2
            dsimp only
            by_cases hpos : 0 < x2 - x1 ∧ 0 < y2 - y1
            · rw [if_pos hpos]
              constructor
              · intro h
                exact ⟨p1, p2, x1, y1, x2, y2, rfl, hp1, hp2, hpos.1, hpos.2,
                  (Option.some.inj h).symm⟩
              · rintro ⟨t1, t2, x1', y1', x2', y2', htt, hpa, hpb, _, _, hr⟩
                injection htt with e1 e2
                injection e2 with e2 _
                subst e1
                subst e2
                rw [hp1] at hpa
                rw [hp2] at hpb
                obtain ⟨ex1, ey1⟩ := Prod.mk.injEq .. ▸ Option.some.inj hpa
                obtain ⟨ex2, ey2⟩ := Prod.mk.injEq .. ▸ Option.some.inj hpb
                subst ex1
                subst ey1
                subst ex2
                subst ey2
                rw [hr]
            · rw [if_neg hpos]
              simp only [List.cons.injEq, and_true, List.nil_eq]
              constructor
              · intro hc
                exact Option.noConfusion hc
              · rintro ⟨t1, t2, x1', y1', x2', y2', ⟨ht1, ht2⟩, hpa, hpb, hx, hy, hr⟩
                subst ht1
                subst ht2
                rw [hp1] at hpa
                rw [hp2] at hpb
                obtain ⟨hx1, hy1⟩ := Prod.mk.injEq .. ▸ Option.some.inj hpa
                obtain ⟨hx2, hy2⟩ := Prod.mk.injEq .. ▸ Option.some.inj hpb
                subst hx1
                subst hy1
                subst hx2
                subst hy2
                exact (hpos ⟨hx, hy⟩).elim
      | cons p3 rest3 => simp

/-- C8: Rect::parse returns a rect exactly when the input is two comma-pairs
of numbers separated by whitespace with positive derived dimensions, the rect
being (x1, y1, x2-x1, y2-y1); and the scenario lines "10,10 110,110" and
"bad" yield exactly one parsed region, Rect(10,10,100,100), the malformed
line yielding nothing. -/
theorem C8_parse_grammar :
    (∀ (s : List Char) (r : Rect),
      Rect.parse s = some r ↔
      ∃ t1 t2 x1 y1 x2 y2,
        splitWhitespaceChars (trimChars s) = [t1, t2] ∧
        IsCommaPairOf t1 x1 y1 ∧ IsCommaPairOf t2 x2 y2 ∧
        0 < x2 - x1 ∧ 0 < y2 - y1 ∧
        r = Rect.new x1 y1 (x2 - x1) (y2 - y1)) ∧
    Rect.parse line1 = some (Rect.new 10 10 100 100) ∧
    Rect.parse line2 = none ∧
    parseRegionLines [line1, line2] = [Rect.new 10 10 100 100] := by
  have hs1 : splitWhitespaceChars (trimChars line1)
      = [['1','0',',','1','0'], ['1','1','0',',','1','1','0']] := by decide
  have hp1 : parsePair ['1','0',',','1','0'] = some (10, 10) := by decide
  have hp2 : parsePair ['1','1','0',',','1','1','0'] = some (110, 110) := by decide
  have h1 : Rect.parse line1 = some (Rect.new 10 10 100 100) := by
    simp only [Rect.parse, hs1, hp1, hp2]
    norm_num [Rect.new]
  have hs2 : splitWhitespaceChars (trimChars line2) = [['b','a','d']] := by decide
  have h2 : Rect.parse line2 = none := by
    simp only [Rect.parse, hs2]
  have h3 : parseRegionLines [line1, line2] = [Rect.new 10 10 100 100] := by
    simp only [parseRegionLines, h1, h2]
  exact ⟨parse_characterization, h1, h2, h3⟩

end Waysnip
